import Mathlib

/-!
Verification of the keyword-grouper repository: a shallow embedding of
`db_utils.py` (SQLite-backed classification cache), `llm_utils.py`
(per-vendor model dispatch) and the keyword-processing loop of `app.py`
(grouping orchestrator), together with theorems settling the frozen
claims about the natural-language specification.

Machine integers are modelled as `Nat` with explicit reduction modulo
2^32 where the SHA-256 rounds overflow; fallible Python code is modelled
with `Option` / `Except`; the SQLite table is modelled as an explicit
list of rows threaded through every operation.
-/

namespace KeywordGrouper

/-! ## hashlib.sha256 — the hash backing `get_prompt_hash`

Faithful executable model of SHA-256 (FIPS 180-4) as invoked by
`db_utils.get_prompt_hash`: UTF-8 encode the text, pad, compress
64-byte blocks, and produce the lowercase hex digest of the eight
32-bit hash words. Verified below against the standard test vectors
for "abc" and the empty string. -/

namespace Hashlib

/-- Reduction of an unbounded natural to a 32-bit word (2^32 = 4294967296). -/
def u32 (x : Nat) : Nat := x % 4294967296

/-- Rotate a 32-bit word right by `n` bits. -/
def rotr (n w : Nat) : Nat := u32 ((w >>> n) ||| (w <<< (32 - n)))

/-- SHA-256 big Sigma-0 function. -/
def bigSigma0 (x : Nat) : Nat := rotr 2 x ^^^ rotr 13 x ^^^ rotr 22 x

/-- SHA-256 big Sigma-1 function. -/
def bigSigma1 (x : Nat) : Nat := rotr 6 x ^^^ rotr 11 x ^^^ rotr 25 x

/-- SHA-256 small sigma-0 function. -/
def smallSigma0 (x : Nat) : Nat := rotr 7 x ^^^ rotr 18 x ^^^ (x >>> 3)

/-- SHA-256 small sigma-1 function. -/
def smallSigma1 (x : Nat) : Nat := rotr 17 x ^^^ rotr 19 x ^^^ (x >>> 10)

/-- SHA-256 choice function; the 32-bit complement of `e` is `e XOR 0xFFFFFFFF`. -/
def ch (e f g : Nat) : Nat := (e &&& f) ^^^ ((e ^^^ 4294967295) &&& g)

/-- SHA-256 majority function. -/
def maj (a b c : Nat) : Nat := (a &&& b) ^^^ (a &&& c) ^^^ (b &&& c)

/-- The eight 32-bit hash words of a SHA-256 state / digest. -/
structure Hash8 where
  h0 : Nat
  h1 : Nat
  h2 : Nat
  h3 : Nat
  h4 : Nat
  h5 : Nat
  h6 : Nat
  h7 : Nat
deriving DecidableEq, Repr

/-- The eight working registers of the SHA-256 compression loop. -/
structure Regs where
  a : Nat
  b : Nat
  c : Nat
  d : Nat
  e : Nat
  f : Nat
  g : Nat
  h : Nat
deriving DecidableEq, Repr

/-- The 64 SHA-256 round constants (FIPS 180-4 section 4.2.2, in decimal). -/
def shaK : List Nat :=
  [1116352408, 1899447441, 3049323471, 3921009573, 961987163, 1508970993,
   2453635748, 2870763221, 3624381080, 310598401, 607225278, 1426881987,
   1925078388, 2162078206, 2614888103, 3248222580, 3835390401, 4022224774,
   264347078, 604807628, 770255983, 1249150122, 1555081692, 1996064986,
   2554220882, 2821834349, 2952996808, 3210313671, 3336571891, 3584528711,
   113926993, 338241895, 666307205, 773529912, 1294757372, 1396182291,
   1695183700, 1986661051, 2177026350, 2456956037, 2730485921, 2820302411,
   3259730800, 3345764771, 3516065817, 3600352804, 4094571909, 275423344,
   430227734, 506948616, 659060556, 883997877, 958139571, 1322822218,
   1537002063, 1747873779, 1955562222, 2024104815, 2227730452, 2361852424,
   2428436474, 2756734187, 3204031479, 3329325298]

/-- The SHA-256 initial hash value (FIPS 180-4 section 5.3.3, in decimal). -/
def shaH0 : Hash8 :=
  ⟨1779033703, 3144134277, 1013904242, 2773480762,
   1359893119, 2600822924, 528734635, 1541459225⟩

/-- Extend the 16 message-schedule words of a block to the 64 round words. -/
def extendSchedule (w : List Nat) : List Nat :=
  (List.range 48).foldl
    (fun ws _ =>
      let n := ws.length
      ws ++ [u32 (smallSigma1 (ws.getD (n - 2) 0) + ws.getD (n - 7) 0 +
                  smallSigma0 (ws.getD (n - 15) 0) + ws.getD (n - 16) 0)])
    w

/-- One SHA-256 round, consuming one (round constant, schedule word) pair. -/
def roundStep (r : Regs) (kw : Nat × Nat) : Regs :=
  let t1 := u32 (r.h + bigSigma1 r.e + ch r.e r.f r.g + kw.1 + kw.2)
  let t2 := u32 (bigSigma0 r.a + maj r.a r.b r.c)
  ⟨u32 (t1 + t2), r.a, r.b, r.c, u32 (r.d + t1), r.e, r.f, r.g⟩

/-- Compress one 64-byte block into the running hash state. -/
def compressBlock (hs : Hash8) (block : List Nat) : Hash8 :=
  let w16 := (List.range 16).map fun i =>
    ((block.getD (4 * i) 0) <<< 24) ||| ((block.getD (4 * i + 1) 0) <<< 16) |||
    ((block.getD (4 * i + 2) 0) <<< 8) ||| (block.getD (4 * i + 3) 0)
  let ws := extendSchedule w16
  let r := (shaK.zip ws).foldl roundStep ⟨hs.h0, hs.h1, hs.h2, hs.h3, hs.h4, hs.h5, hs.h6, hs.h7⟩
  ⟨u32 (hs.h0 + r.a), u32 (hs.h1 + r.b), u32 (hs.h2 + r.c), u32 (hs.h3 + r.d),
   u32 (hs.h4 + r.e), u32 (hs.h5 + r.f), u32 (hs.h6 + r.g), u32 (hs.h7 + r.h)⟩

/-- Big-endian 8-byte encoding of the 64-bit message bit length. -/
def be64 (n : Nat) : List Nat := (List.range 8).map fun i => (n >>> (8 * (7 - i))) % 256

/-- SHA-256 padding: append 0x80, zero fill to 56 mod 64, then the bit length. -/
def padMessage (msg : List Nat) : List Nat :=
  msg ++ [128] ++ List.replicate ((64 - (msg.length + 9) % 64) % 64) 0 ++ be64 (8 * msg.length)

/-- Split a byte list into 64-byte blocks (fuel-indexed structural recursion). -/
def toBlocks : Nat → List Nat → List (List Nat)
  | 0, _ => []
  | _, [] => []
  | fuel + 1, l => l.take 64 :: toBlocks fuel (l.drop 64)

/-- SHA-256 of a byte sequence, as the eight final 32-bit hash words. -/
def sha256Bytes (msg : List Nat) : Hash8 :=
  let p := padMessage msg
  (toBlocks p.length p).foldl compressBlock shaH0

/-- UTF-8 encoding of one Unicode scalar value, as Python's str.encode produces. -/
def utf8EncodeChar (c : Char) : List Nat :=
  let n := c.toNat
  if n < 128 then [n]
  else if n < 2048 then [192 ||| (n >>> 6), 128 ||| (n &&& 63)]
  else if n < 65536 then
    [224 ||| (n >>> 12), 128 ||| ((n >>> 6) &&& 63), 128 ||| (n &&& 63)]
  else
    [240 ||| (n >>> 18), 128 ||| ((n >>> 12) &&& 63), 128 ||| ((n >>> 6) &&& 63), 128 ||| (n &&& 63)]

/-- UTF-8 encoding of a whole string as a byte list. -/
def utf8Encode (s : String) : List Nat :=
  s.data.foldr (fun c acc => utf8EncodeChar c ++ acc) []

/-- Lowercase hex character of a nibble. -/
def hexChar (n : Nat) : Char :=
  if n < 10 then Char.ofNat (48 + n) else Char.ofNat (87 + n)

/-- Eight lowercase hex characters of one 32-bit word, most significant nibble first. -/
def wordHex (w : Nat) : List Char :=
  (List.range 8).map fun i => hexChar ((w >>> (28 - 4 * i)) &&& 15)

/-- Lowercase hex digest (64 characters) of a SHA-256 state, as Python's hexdigest. -/
def hexdigest (d : Hash8) : String :=
  String.mk (wordHex d.h0 ++ wordHex d.h1 ++ wordHex d.h2 ++ wordHex d.h3 ++
             wordHex d.h4 ++ wordHex d.h5 ++ wordHex d.h6 ++ wordHex d.h7)

/-- All eight hash words fit in 32 bits. -/
def Bounded (d : Hash8) : Prop :=
  d.h0 < 4294967296 ∧ d.h1 < 4294967296 ∧ d.h2 < 4294967296 ∧ d.h3 < 4294967296 ∧
  d.h4 < 4294967296 ∧ d.h5 < 4294967296 ∧ d.h6 < 4294967296 ∧ d.h7 < 4294967296

/-- The digest as the 256-bit number obtained by concatenating the eight words. -/
def digestVal (d : Hash8) : Nat :=
  ((((((d.h0 * 4294967296 + d.h1) * 4294967296 + d.h2) * 4294967296 + d.h3) * 4294967296 +
      d.h4) * 4294967296 + d.h5) * 4294967296 + d.h6) * 4294967296 + d.h7

end Hashlib

/-- Family of pairwise distinct template texts used for the pigeonhole argument. -/
def repeatedTemplate (n : Nat) : String := String.mk (List.replicate n 'a')

/-! ## db_utils.py — the classification cache

The SQLite table `keyword_groups` is modelled as a list of rows in
insertion (rowid) order plus the AUTOINCREMENT counter. The UNIQUE
constraint on (keyword, language, prompt_hash) is modelled inside
`add_keyword_grouping` exactly as the Python code observes it: the
INSERT raises IntegrityError — caught and turned into a warning no-op —
precisely when a row with the same triple is already present.
`datetime.now()` is an effect, so the timestamp written by
`add_keyword_grouping` is passed as an explicit `date_added` argument. -/

namespace DbUtils

/-- One row of the `keyword_groups` table created by `init_db`. -/
structure Row where
  id : Nat
  keyword : String
  language : String
  prompt_hash : String
  main_cat : String
  sub_cat_1 : String
  sub_cat_2 : String
  semantic_theme : String
  date_added : String
deriving DecidableEq, Repr

/-- The database state: rows in rowid order plus the next AUTOINCREMENT id. -/
structure DB where
  rows : List Row
  nextId : Nat
deriving DecidableEq, Repr

/-- The freshly initialised (empty) database produced by `init_db`. -/
def emptyDB : DB := ⟨[], 1⟩

/-- Generates a SHA-256 hash of the prompt text (`get_prompt_hash`). -/
def get_prompt_hash (prompt_text : String) : String :=
  Hashlib.hexdigest (Hashlib.sha256Bytes (Hashlib.utf8Encode prompt_text))

/-- The WHERE clause `keyword = ? AND language = ? AND prompt_hash = ?`. -/
def rowMatches (keyword language prompt_hash : String) (r : Row) : Bool :=
  r.keyword == keyword && r.language == language && r.prompt_hash == prompt_hash

/-- Whether the table already holds a row for the (keyword, language, fingerprint)
triple — the condition under which the UNIQUE constraint fires. -/
def hasTriple (db : DB) (keyword language prompt_text : String) : Bool :=
  db.rows.any (rowMatches keyword language (get_prompt_hash prompt_text))

/-- The four classification columns selected by `get_existing_grouping`. -/
structure Grouping where
  main_cat : String
  sub_cat_1 : String
  sub_cat_2 : String
  semantic_theme : String
deriving DecidableEq, Repr

/-- Checks if a keyword grouping exists for the given keyword, language and
prompt (`get_existing_grouping`): fetch the first row matching the triple,
returning its four category columns, or `none` for the Python `None`. -/
def get_existing_grouping (db : DB) (keyword language prompt_text : String) :
    Option Grouping :=
  let prompt_hash := get_prompt_hash prompt_text
  (db.rows.find? (rowMatches keyword language prompt_hash)).map
    fun r => ⟨r.main_cat, r.sub_cat_1, r.sub_cat_2, r.semantic_theme⟩

/-- Observable outcome of `add_keyword_grouping`: a fresh INSERT, or the
caught-IntegrityError warning path (duplicate triple, no change). -/
inductive AddOutcome where
  | inserted
  | duplicate
deriving DecidableEq, Repr

/-- Adds a new keyword grouping to the database (`add_keyword_grouping`).
On a duplicate (keyword, language, prompt_hash) triple the INSERT's
IntegrityError is caught: the database is unchanged and only a warning is
printed, reported here as `AddOutcome.duplicate`. -/
def add_keyword_grouping (db : DB)
    (keyword language prompt_text main_cat sub_cat_1 sub_cat_2 semantic_theme : String)
    (date_added : String) : DB × AddOutcome :=
  let prompt_hash := get_prompt_hash prompt_text
  if db.rows.any (rowMatches keyword language prompt_hash) then
    (db, .duplicate)
  else
    ({ rows := db.rows ++
        [⟨db.nextId, keyword, language, prompt_hash, main_cat, sub_cat_1,
          sub_cat_2, semantic_theme, date_added⟩],
       nextId := db.nextId + 1 }, .inserted)

/-- The columns selected by `get_all_data`, in SELECT order. -/
structure ExportRow where
  main_cat : String
  sub_cat_1 : String
  sub_cat_2 : String
  keyword : String
  language : String
  semantic_theme : String
  date_added : String
deriving DecidableEq, Repr

/-- Projection of a table row onto the exported columns. -/
def exportRow (r : Row) : ExportRow :=
  ⟨r.main_cat, r.sub_cat_1, r.sub_cat_2, r.keyword, r.language, r.semantic_theme,
   r.date_added⟩

/-- The comparison realising `ORDER BY date_added DESC` on the TEXT column. -/
def dateDesc (r s : Row) : Bool := decide (s.date_added ≤ r.date_added)

/-- Retrieves all data from the database (`get_all_data`): every row, ordered
by `date_added` descending, projected onto the exported columns. -/
def get_all_data (db : DB) : List ExportRow :=
  (db.rows.mergeSort dateDesc).map exportRow

end DbUtils

/-! ## llm_utils.py — model dispatch

`get_llm_grouping` first renders the prompt template with Python's
`str.format(keyword=..., language=...)` and then dispatches on the
`llm_choice` string. The four vendor call functions perform network I/O,
so the model's observable is which vendor function would be invoked and
with which rendered prompt; an `Except.error` carries the Python
exception raised instead (`KeyError` / `ValueError` from `format`, or
the explicit `ValueError("Invalid LLM choice")`).

The `str.format` model covers the template language this repository
uses: literal text, `\x7b\x7b` / `\x7d\x7d` escapes, and simple named
replacement fields. An all-digit or empty field name is a positional
reference (IndexError here, since `format` is called with keyword
arguments only); any other name except `keyword` / `language` raises
KeyError, as in Python. Conversion and format-spec suffixes do not occur
in this repository's templates and are not modelled. -/

namespace LlmUtils

/-- The vendor call function selected by the dispatch chain. -/
inductive Vendor where
  | openai
  | gemini
  | claude
  | mistral
deriving DecidableEq, Repr

/-- Python exceptions observable from `get_llm_grouping` itself. -/
inductive PyError where
  | valueError (msg : String)
  | keyError (name : String)
  | indexError (msg : String)
deriving DecidableEq, Repr

/-- State of the `str.format` scanner: emitted output, the field name being
read (if inside a replacement field), whether a lone closing brace is
awaiting its escape partner, and the first error raised. -/
structure FmtState where
  out : List Char
  field : Option (List Char)
  closing : Bool
  err : Option PyError
deriving DecidableEq, Repr

/-- One character step of the `str.format` scanner. -/
def pyFormatStep (keyword language : String) (st : FmtState) (c : Char) : FmtState :=
  if st.err.isSome then st
  else if st.closing then
    if c = '\x7d' then { st with out := st.out ++ ['\x7d'], closing := false }
    else { st with err := some (.valueError "Single \x27\x7d\x27 encountered in format string"), closing := false }
  else
    match st.field with
    | some acc =>
      if c = '\x7d' then
        if acc.all Char.isDigit then
          { st with err := some (.indexError "Replacement index 0 out of range for positional args tuple"), field := none }
        else if acc = "keyword".data then
          { st with out := st.out ++ keyword.data, field := none }
        else if acc = "language".data then
          { st with out := st.out ++ language.data, field := none }
        else
          { st with err := some (.keyError (String.mk acc)), field := none }
      else if c = '\x7b' then
        if acc = [] then { st with out := st.out ++ ['\x7b'], field := none }
        else { st with err := some (.valueError "unexpected \x27\x7b\x27 in field name"), field := none }
      else { st with field := some (acc ++ [c]) }
    | none =>
      if c = '\x7b' then { st with field := some [] }
      else if c = '\x7d' then { st with closing := true }
      else { st with out := st.out ++ [c] }

/-- Python's `template.format(keyword=keyword, language=language)`:
either the rendered string or the exception `format` raises. -/
def pyFormat (template keyword language : String) : Except PyError String :=
  let st := template.data.foldl (pyFormatStep keyword language) ⟨[], none, false, none⟩
  match st.err with
  | some e => .error e
  | none =>
    if st.field.isSome then
      .error (.valueError "Single \x27\x7b\x27 encountered in format string")
    else if st.closing then
      .error (.valueError "Single \x27\x7d\x27 encountered in format string")
    else .ok (String.mk st.out)

/-- Gets grouping from the selected LLM (`get_llm_grouping`): renders the
prompt template, then dispatches on `llm_choice`, raising
`ValueError("Invalid LLM choice")` for an unknown choice. The result is the
vendor call function invoked together with the rendered prompt it receives. -/
def get_llm_grouping (keyword language llm_choice custom_prompt_template : String) :
    Except PyError (Vendor × String) :=
  match pyFormat custom_prompt_template keyword language with
  | .error e => .error e
  | .ok prompt =>
    if llm_choice = "OpenAI" then .ok (.openai, prompt)
    else if llm_choice = "Gemini" then .ok (.gemini, prompt)
    else if llm_choice = "Claude" then .ok (.claude, prompt)
    else if llm_choice = "Mistral" then .ok (.mistral, prompt)
    else .error (.valueError "Invalid LLM choice")

/-- Whether a `get_llm_grouping` result is a raised ValueError. -/
def isValueError {α : Type} : Except PyError α → Bool
  | .error (.valueError _) => true
  | _ => false

end LlmUtils

/-! ## app.py — the keyword processing loop (grouping orchestrator)

The per-keyword loop (app.py lines 186-268) is modelled as a fold over
the keyword list, threading the database, the accumulated run results
and the four counters. The actual network interaction of
`get_llm_grouping` cannot be embedded, so each run takes an oracle
mapping a keyword to the outcome of that call for the run's fixed
language, llm choice and template: either an exception (whose message is
`str(e)`) or a returned value. A returned value is `none` for Python
`None` — and for non-dict JSON values, which the validation
`llm_result and isinstance(llm_result, dict) and ...` rejects exactly
like `None` — or `some entries` for a parsed JSON object with string
values (Python dict keys are unique, entries in insertion order).

The two database try/except arms of the loop (cache read, line 192, and
save, line 241) are unreachable here because the modelled store cannot
fail; the corresponding DB_ERROR branches are therefore not part of the
model. -/

namespace App

/-- Outcome of the `get_llm_grouping` call for one keyword: the call raises,
or returns a value (`none` = Python None or any non-dict). -/
inductive LlmOutcome where
  | raises (msg : String)
  | returns (val : Option (List (String × String)))
deriving DecidableEq, Repr

/-- Python `str.strip` whitespace class (ASCII part). -/
def pyIsSpace (c : Char) : Bool :=
  c = ' ' || c = '\t' || c = '\n' || c = '\r' || c = '\x0b' || c = '\x0c'

/-- Python `str.strip()`: remove leading and trailing whitespace. -/
def pyStrip (s : String) : String :=
  String.mk (((s.data.dropWhile pyIsSpace).reverse.dropWhile pyIsSpace).reverse)

/-- Python `key in dict` on the modelled JSON object. -/
def pyDictContains (d : List (String × String)) (k : String) : Bool :=
  d.any fun kv => kv.1 == k

/-- Python `dict.get(key, default)` on the modelled JSON object. -/
def pyDictGet (d : List (String × String)) (k dflt : String) : String :=
  match d.find? (fun kv => kv.1 == k) with
  | some kv => kv.2
  | none => dflt

/-- The response validation of app.py lines 225-227:
`llm_result and isinstance(llm_result, dict)` plus membership of the four
required keys. -/
def validLlmResult (val : Option (List (String × String))) : Bool :=
  match val with
  | none => false
  | some d =>
    !d.isEmpty && pyDictContains d "main_cat" && pyDictContains d "sub_cat_1" &&
    pyDictContains d "sub_cat_2" && pyDictContains d "semantic_theme"

/-- The normalization of app.py lines 230-233:
`str(value).strip() or default` (values are strings in the model, so `str`
is the identity; an empty strip result is falsy and yields the default). -/
def normalizeField (v dflt : String) : String :=
  let t := pyStrip v
  if t = "" then dflt else t

/-- Python `str()` of the modelled JSON object, for the warning message. -/
def pyStrDict (d : List (String × String)) : String :=
  "\x7b" ++ String.intercalate ", "
    (d.map fun kv => "\x27" ++ kv.1 ++ "\x27: \x27" ++ kv.2 ++ "\x27") ++ "\x7d"

/-- Python `str()` of the modelled `llm_result` value. -/
def pyStrVal : Option (List (String × String)) → String
  | none => "None"
  | some d => pyStrDict d

/-- One entry of `st.session_state.results`: the classification fields plus
the `_source` provenance tag. -/
structure RunResult where
  keyword : String
  language : String
  main_cat : String
  sub_cat_1 : String
  sub_cat_2 : String
  semantic_theme : String
  source : String
deriving DecidableEq, Repr

/-- The mutable state of one processing run: the database plus
`st.session_state.results` and the four counters of app.py lines 173-176. -/
structure RunState where
  db : DbUtils.DB
  results : List RunResult
  processed_count : Nat
  errors : Nat
  llm_calls : Nat
  cache_hits : Nat
deriving DecidableEq, Repr

/-- The invalid/incomplete-response branch of app.py lines 258-262. -/
def invalidResponse (language : String) (st : RunState) (keyword : String)
    (val : Option (List (String × String))) : RunState :=
  { st with
    errors := st.errors + 1,
    results := st.results ++
      [⟨keyword, language, "LLM_ERROR", "LLM_ERROR", "LLM_ERROR",
        "Invalid/Incomplete LLM Response: " ++ (pyStrVal val).take 100 ++ "...",
        "llm_error"⟩] }

/-- The valid-response branch of app.py lines 229-256: normalize the four
fields, store the grouping, append the result with source `llm`. -/
def validResponse (language prompt now : String) (st : RunState) (keyword : String)
    (d : List (String × String)) : RunState :=
  let main_cat := normalizeField (pyDictGet d "main_cat" "Uncategorized") "Uncategorized"
  let sub_cat_1 := normalizeField (pyDictGet d "sub_cat_1" "General") "General"
  let sub_cat_2 := normalizeField (pyDictGet d "sub_cat_2" "Detail") "Detail"
  let semantic_theme := normalizeField (pyDictGet d "semantic_theme" "N/A") "N/A"
  let db2 := (DbUtils.add_keyword_grouping st.db keyword language prompt
    main_cat sub_cat_1 sub_cat_2 semantic_theme now).1
  { st with
    db := db2,
    results := st.results ++
      [⟨keyword, language, main_cat, sub_cat_1, sub_cat_2, semantic_theme, "llm"⟩],
    processed_count := st.processed_count + 1 }

/-- One iteration of the keyword processing loop (app.py lines 186-268):
cache check, then on a miss the model call with validation, normalization
and storage, every failure caught per keyword. -/
def processKeyword (language prompt : String) (oracle : String → LlmOutcome)
    (now : String) (st : RunState) (keyword : String) : RunState :=
  match DbUtils.get_existing_grouping st.db keyword language prompt with
  | some existing =>
    { st with
      cache_hits := st.cache_hits + 1,
      results := st.results ++
        [⟨keyword, language, existing.main_cat, existing.sub_cat_1,
          existing.sub_cat_2, existing.semantic_theme, "cache"⟩],
      processed_count := st.processed_count + 1 }
  | none =>
    let st1 := { st with llm_calls := st.llm_calls + 1 }
    match oracle keyword with
    | .raises msg =>
      { st1 with
        errors := st1.errors + 1,
        results := st1.results ++
          [⟨keyword, language, "LLM_ERROR", "LLM_ERROR", "LLM_ERROR",
            "API/Processing Error: " ++ msg, "llm_error"⟩] }
    | .returns none => invalidResponse language st1 keyword none
    | .returns (some d) =>
      if validLlmResult (some d) then validResponse language prompt now st1 keyword d
      else invalidResponse language st1 keyword (some d)

/-- The whole processing run (app.py lines 167-268): results cleared,
counters zeroed, then the loop folded over the keyword list. -/
def processKeywords (db : DbUtils.DB) (language prompt : String)
    (oracle : String → LlmOutcome) (now : String) (keywords : List String) : RunState :=
  keywords.foldl (processKeyword language prompt oracle now) ⟨db, [], 0, 0, 0, 0⟩

end App

/-! ## Spec-side comparison definitions

Definitions written from the specification's words — not from the code —
for the refinement comparison of claim C7, which characterises acceptance
as "a structured mapping containing exactly the four required fields". -/

/-- The spec's acceptance predicate read literally: the response is a
structured mapping whose field set is exactly the four required fields —
all four present and no others. -/
def llmResultHasExactlyFourFields (val : Option (List (String × String))) : Bool :=
  match val with
  | none => false
  | some d =>
    (App.pyDictContains d "main_cat" && App.pyDictContains d "sub_cat_1" &&
     App.pyDictContains d "sub_cat_2" && App.pyDictContains d "semantic_theme") &&
    d.all fun kv =>
      kv.1 == "main_cat" || kv.1 == "sub_cat_1" || kv.1 == "sub_cat_2" ||
      kv.1 == "semantic_theme"

/-- The amended acceptance predicate: a structured mapping containing all four
required fields (extra fields tolerated). -/
def llmResultHasFourFields (val : Option (List (String × String))) : Bool :=
  match val with
  | none => false
  | some d =>
    App.pyDictContains d "main_cat" && App.pyDictContains d "sub_cat_1" &&
    App.pyDictContains d "sub_cat_2" && App.pyDictContains d "semantic_theme"

/-! ## Concrete fixtures used by the witnesses and counterexamples -/

/-- Timestamp fixture (the format `datetime.now().strftime` produces). -/
def sampleDate : String := "2025-04-10 12:00:00"

/-- Database holding one stored classification for ("running shoes", "English")
under template "T". -/
def sampleDb : DbUtils.DB :=
  (DbUtils.add_keyword_grouping DbUtils.emptyDB "running shoes" "English" "T"
    "Footwear" "Running" "Shoes" "buy running shoes" sampleDate).1

/-- A well-formed model response with all four required fields. -/
def sampleDict : List (String × String) :=
  [("main_cat", "Footwear"), ("sub_cat_1", "Running"), ("sub_cat_2", "Shoes"),
   ("semantic_theme", "buy running shoes")]

/-- Oracle fixture: the model answers every keyword with `sampleDict`. -/
def sampleOracle : String → App.LlmOutcome :=
  fun _ => .returns (some sampleDict)

/-- A model response with the four required fields plus an extra one; the code
accepts it, the spec's "exactly the four fields" reading does not. -/
def extraFieldDict : List (String × String) :=
  [("main_cat", "Footwear"), ("sub_cat_1", "Running"), ("sub_cat_2", "Shoes"),
   ("semantic_theme", "buy running shoes"), ("confidence", "high")]

/-- A model response whose fields need normalization: whitespace to trim and
empty values to replace by the per-field defaults. -/
def untrimmedDict : List (String × String) :=
  [("main_cat", " Footwear "), ("sub_cat_1", "   "), ("sub_cat_2", "Trail"),
   ("semantic_theme", "")]

/-- A model response missing three of the four required fields. -/
def incompleteDict : List (String × String) := [("main_cat", "Footwear")]

/-- Oracle fixture: the model answers every keyword with `untrimmedDict`. -/
def untrimmedOracle : String → App.LlmOutcome :=
  fun _ => .returns (some untrimmedDict)

/-- Oracle fixture: the model answers every keyword with `incompleteDict`. -/
def incompleteOracle : String → App.LlmOutcome :=
  fun _ => .returns (some incompleteDict)

/-- Oracle fixture for the batch-resilience scenario: the model call raises for
the second keyword and answers the others with `sampleDict`. -/
def resilienceOracle : String → App.LlmOutcome :=
  fun kw => if kw == "k2" then .raises "boom" else .returns (some sampleDict)

/-! ## Helper lemmas about the cache store -/

namespace DbUtils

theorem rowMatches_mk_self (id : Nat) (k l h m s1 s2 th t : String) :
    rowMatches k l h ⟨id, k, l, h, m, s1, s2, th, t⟩ = true := by
  simp [rowMatches]

theorem lookup_eq_none_iff (db : DB) (k l p : String) :
    get_existing_grouping db k l p = none ↔ hasTriple db k l p = false := by
  simp [get_existing_grouping, hasTriple, List.find?_eq_none, List.any_eq_false]

theorem add_keyword_grouping_inserts (db : DB) (k l p m s1 s2 th t : String)
    (h : hasTriple db k l p = false) :
    add_keyword_grouping db k l p m s1 s2 th t =
      ({ rows := db.rows ++
          [⟨db.nextId, k, l, get_prompt_hash p, m, s1, s2, th, t⟩],
         nextId := db.nextId + 1 }, .inserted) := by
  unfold hasTriple at h
  simp [add_keyword_grouping, h]

theorem add_keyword_grouping_duplicate (db : DB) (k l p m s1 s2 th t : String)
    (h : hasTriple db k l p = true) :
    add_keyword_grouping db k l p m s1 s2 th t = (db, .duplicate) := by
  unfold hasTriple at h
  simp [add_keyword_grouping, h]

theorem lookup_after_add (db : DB) (k l p m s1 s2 th t : String)
    (h : hasTriple db k l p = false) :
    get_existing_grouping (add_keyword_grouping db k l p m s1 s2 th t).1 k l p =
      some ⟨m, s1, s2, th⟩ := by
  rw [add_keyword_grouping_inserts db k l p m s1 s2 th t h]
  have hnone : db.rows.find? (rowMatches k l (get_prompt_hash p)) = none := by
    rw [List.find?_eq_none]
    intro x hx
    have := List.any_eq_false.mp (by simpa [hasTriple] using h) x hx
    simp [this]
  simp [get_existing_grouping, List.find?_append, hnone, rowMatches_mk_self]

theorem hasTriple_after_add (db : DB) (k l p m s1 s2 th t : String) :
    hasTriple (add_keyword_grouping db k l p m s1 s2 th t).1 k l p = true := by
  by_cases h : hasTriple db k l p = true
  · rw [add_keyword_grouping_duplicate db k l p m s1 s2 th t h]
    exact h
  · rw [add_keyword_grouping_inserts db k l p m s1 s2 th t (by simpa using h)]
    simp [hasTriple, rowMatches_mk_self]

end DbUtils

/-! ## Helper lemmas about the processing loop -/

namespace App

theorem processKeyword_cache_hit (language prompt : String)
    (oracle : String → LlmOutcome) (now : String) (st : RunState) (keyword : String)
    (g : DbUtils.Grouping)
    (h : DbUtils.get_existing_grouping st.db keyword language prompt = some g) :
    processKeyword language prompt oracle now st keyword =
      { st with
        cache_hits := st.cache_hits + 1,
        results := st.results ++
          [⟨keyword, language, g.main_cat, g.sub_cat_1, g.sub_cat_2,
            g.semantic_theme, "cache"⟩],
        processed_count := st.processed_count + 1 } := by
  simp [processKeyword, h]

theorem processKeyword_raises (language prompt : String)
    (oracle : String → LlmOutcome) (now : String) (st : RunState) (keyword : String)
    (msg : String)
    (hmiss : DbUtils.get_existing_grouping st.db keyword language prompt = none)
    (hraise : oracle keyword = .raises msg) :
    processKeyword language prompt oracle now st keyword =
      { st with
        llm_calls := st.llm_calls + 1,
        errors := st.errors + 1,
        results := st.results ++
          [⟨keyword, language, "LLM_ERROR", "LLM_ERROR", "LLM_ERROR",
            "API/Processing Error: " ++ msg, "llm_error"⟩] } := by
  simp [processKeyword, hmiss, hraise]

theorem normalizeField_ne_empty (v dflt : String) (h : dflt ≠ "") :
    normalizeField v dflt ≠ "" := by
  unfold normalizeField
  by_cases ht : pyStrip v = ""
  · simp [ht, h]
  · simp [ht]

theorem processKeyword_valid_response (language prompt now keyword : String)
    (oracle : String → LlmOutcome) (st : RunState) (d : List (String × String))
    (hmiss : DbUtils.get_existing_grouping st.db keyword language prompt = none)
    (hor : oracle keyword = .returns (some d))
    (hv : validLlmResult (some d) = true) :
    processKeyword language prompt oracle now st keyword =
      validResponse language prompt now { st with llm_calls := st.llm_calls + 1 }
        keyword d := by
  simp [processKeyword, hmiss, hor, hv]

theorem processKeyword_invalid_response (language prompt now keyword : String)
    (oracle : String → LlmOutcome) (st : RunState)
    (val : Option (List (String × String)))
    (hmiss : DbUtils.get_existing_grouping st.db keyword language prompt = none)
    (hor : oracle keyword = .returns val)
    (hv : validLlmResult val = false) :
    processKeyword language prompt oracle now st keyword =
      invalidResponse language { st with llm_calls := st.llm_calls + 1 }
        keyword val := by
  cases val with
  | none => simp [processKeyword, hmiss, hor]
  | some d => simp [processKeyword, hmiss, hor, hv]

theorem processKeyword_appends (language prompt : String)
    (oracle : String → LlmOutcome) (now : String) (st : RunState) (keyword : String) :
    ∃ r : RunResult,
      (processKeyword language prompt oracle now st keyword).results =
        st.results ++ [r] ∧ r.keyword = keyword := by
  unfold processKeyword
  cases DbUtils.get_existing_grouping st.db keyword language prompt with
  | some g => exact ⟨_, rfl, rfl⟩
  | none =>
    cases oracle keyword with
    | raises msg => exact ⟨_, rfl, rfl⟩
    | returns val =>
      cases val with
      | none => exact ⟨_, rfl, rfl⟩
      | some d =>
        by_cases hv : validLlmResult (some d) = true
        · simp only [hv, if_true, validResponse]
          exact ⟨_, rfl, rfl⟩
        · simp only [Bool.not_eq_true] at hv
          simp only [hv, Bool.false_eq_true, if_false, invalidResponse]
          exact ⟨_, rfl, rfl⟩

theorem foldl_results_map_keyword (language prompt : String)
    (oracle : String → LlmOutcome) (now : String) :
    ∀ (keywords : List String) (st : RunState),
      ((keywords.foldl (processKeyword language prompt oracle now) st).results).map
          RunResult.keyword =
        st.results.map RunResult.keyword ++ keywords
  | [], st => by simp
  | kw :: kws, st => by
    obtain ⟨r, hr, hkw⟩ := processKeyword_appends language prompt oracle now st kw
    rw [List.foldl_cons, foldl_results_map_keyword language prompt oracle now kws _, hr]
    simp [hkw]

end App

/-! ## Helper lemmas about SHA-256: bounds, the digest as a number, and the
pigeonhole collision argument (2^256 possible digests, infinitely many texts) -/

namespace Hashlib

theorem u32_lt (x : Nat) : u32 x < 4294967296 := Nat.mod_lt _ (by norm_num)

theorem compressBlock_bounded (hs : Hash8) (b : List Nat) :
    Bounded (compressBlock hs b) :=
  ⟨u32_lt _, u32_lt _, u32_lt _, u32_lt _, u32_lt _, u32_lt _, u32_lt _, u32_lt _⟩

theorem foldl_compressBlock_bounded :
    ∀ (blocks : List (List Nat)) (hs : Hash8),
      Bounded hs → Bounded (blocks.foldl compressBlock hs)
  | [], _, h => h
  | b :: bs, hs, _ => by
    rw [List.foldl_cons]
    exact foldl_compressBlock_bounded bs _ (compressBlock_bounded hs b)

theorem sha256Bytes_bounded (msg : List Nat) : Bounded (sha256Bytes msg) := by
  unfold sha256Bytes
  exact foldl_compressBlock_bounded _ _ (by constructor <;> norm_num [shaH0])

theorem mulB_add_lt {a b k : Nat} (ha : a < k) (hb : b < 4294967296) :
    a * 4294967296 + b < k * 4294967296 := by
  calc a * 4294967296 + b < a * 4294967296 + 4294967296 := by omega
    _ = (a + 1) * 4294967296 := by ring
    _ ≤ k * 4294967296 := Nat.mul_le_mul_right _ ha

theorem mulB_add_inj {a b a2 b2 : Nat} (hb : b < 4294967296) (hb2 : b2 < 4294967296)
    (h : a * 4294967296 + b = a2 * 4294967296 + b2) : a = a2 ∧ b = b2 := by omega

theorem digestVal_lt {d : Hash8} (h : Bounded d) : digestVal d < 4294967296 ^ 8 := by
  obtain ⟨h0, h1, h2, h3, h4, h5, h6, h7⟩ := h
  unfold digestVal
  have s1 : d.h0 * 4294967296 + d.h1 < 4294967296 ^ 2 := by
    simpa [pow_succ] using mulB_add_lt (k := 4294967296 ^ 1) (by simpa using h0) h1
  have s2 := mulB_add_lt (k := 4294967296 ^ 2) s1 h2
  rw [← pow_succ] at s2
  have s3 := mulB_add_lt (k := 4294967296 ^ 3) s2 h3
  rw [← pow_succ] at s3
  have s4 := mulB_add_lt (k := 4294967296 ^ 4) s3 h4
  rw [← pow_succ] at s4
  have s5 := mulB_add_lt (k := 4294967296 ^ 5) s4 h5
  rw [← pow_succ] at s5
  have s6 := mulB_add_lt (k := 4294967296 ^ 6) s5 h6
  rw [← pow_succ] at s6
  have s7 := mulB_add_lt (k := 4294967296 ^ 7) s6 h7
  rw [← pow_succ] at s7
  exact s7

theorem digestVal_inj {x y : Hash8} (hx : Bounded x) (hy : Bounded y)
    (h : digestVal x = digestVal y) : x = y := by
  cases x with
  | mk a0 a1 a2 a3 a4 a5 a6 a7 =>
  cases y with
  | mk b0 b1 b2 b3 b4 b5 b6 b7 =>
  obtain ⟨hx0, hx1, hx2, hx3, hx4, hx5, hx6, hx7⟩ := hx
  obtain ⟨hy0, hy1, hy2, hy3, hy4, hy5, hy6, hy7⟩ := hy
  unfold digestVal at h
  dsimp at h hx0 hx1 hx2 hx3 hx4 hx5 hx6 hx7 hy0 hy1 hy2 hy3 hy4 hy5 hy6 hy7
  have p7 := mulB_add_inj hx7 hy7 h
  have p6 := mulB_add_inj hx6 hy6 p7.1
  have p5 := mulB_add_inj hx5 hy5 p6.1
  have p4 := mulB_add_inj hx4 hy4 p5.1
  have p3 := mulB_add_inj hx3 hy3 p4.1
  have p2 := mulB_add_inj hx2 hy2 p3.1
  have p1 := mulB_add_inj hx1 hy1 p2.1
  simp only [Hash8.mk.injEq]
  exact ⟨p1.1, p1.2, p2.2, p3.2, p4.2, p5.2, p6.2, p7.2⟩

end Hashlib

/-- Pigeonhole: SHA-256 digests form a finite codomain while template texts are
infinite, so two distinct template texts share a prompt hash. -/
theorem get_prompt_hash_exists_collision :
    ∃ T1 T2 : String, T1 ≠ T2 ∧ DbUtils.get_prompt_hash T1 = DbUtils.get_prompt_hash T2 := by
  classical
  obtain ⟨n, m, hnm, heq⟩ := Finite.exists_ne_map_eq_of_infinite
    (fun n : ℕ => (⟨Hashlib.digestVal (Hashlib.sha256Bytes (Hashlib.utf8Encode (repeatedTemplate n))),
       Hashlib.digestVal_lt (Hashlib.sha256Bytes_bounded _)⟩ : Fin (4294967296 ^ 8)))
  refine ⟨repeatedTemplate n, repeatedTemplate m, ?_, ?_⟩
  · intro hcontra
    apply hnm
    have hlen : (repeatedTemplate n).length = (repeatedTemplate m).length := by
      rw [hcontra]
    simpa [repeatedTemplate, String.length] using hlen
  · have hdig := congrArg Fin.val heq
    have hsha := Hashlib.digestVal_inj (Hashlib.sha256Bytes_bounded _)
      (Hashlib.sha256Bytes_bounded _) hdig
    unfold DbUtils.get_prompt_hash
    rw [hsha]

/-! ## Helper lemmas for the export ordering -/

namespace DbUtils

theorem dateDesc_trans : ∀ a b c : Row, dateDesc a b → dateDesc b c → dateDesc a c := by
  intro a b c h1 h2
  simp only [dateDesc, decide_eq_true_eq] at h1 h2 ⊢
  exact le_trans h2 h1

theorem dateDesc_total : ∀ a b : Row, dateDesc a b || dateDesc b a := by
  intro a b
  simp only [dateDesc, Bool.or_eq_true, decide_eq_true_eq]
  exact le_total b.date_added a.date_added

end DbUtils

theorem sampleDb_lookup :
    DbUtils.get_existing_grouping sampleDb "running shoes" "English" "T" =
      some ⟨"Footwear", "Running", "Shoes", "buy running shoes"⟩ :=
  DbUtils.lookup_after_add DbUtils.emptyDB "running shoes" "English" "T"
    "Footwear" "Running" "Shoes" "buy running shoes" sampleDate rfl

/-! ## The claims -/

/-- C1: cache-before-model. If the cache lookup for (keyword, language,
template) returns a stored record, processing that keyword appends a Run
Result built from the stored fields with provenance `cache`, bumps only the
cache-hit and processed counters, and leaves the database, the model-call
counter and the error counter unchanged; moreover the resulting state is the
same for every Model Client oracle, so `get_llm_grouping` is never invoked
for that keyword. -/
theorem c1_cache_hit_skips_model (language prompt now keyword : String)
    (oracle : String → App.LlmOutcome) (st : App.RunState) (g : DbUtils.Grouping)
    (h : DbUtils.get_existing_grouping st.db keyword language prompt = some g) :
    App.processKeyword language prompt oracle now st keyword =
      { st with
        cache_hits := st.cache_hits + 1,
        results := st.results ++
          [⟨keyword, language, g.main_cat, g.sub_cat_1, g.sub_cat_2,
            g.semantic_theme, "cache"⟩],
        processed_count := st.processed_count + 1 } ∧
    (∀ oracle2 : String → App.LlmOutcome,
      App.processKeyword language prompt oracle2 now st keyword =
        App.processKeyword language prompt oracle now st keyword) := by
  constructor
  · exact App.processKeyword_cache_hit language prompt oracle now st keyword g h
  · intro oracle2
    rw [App.processKeyword_cache_hit language prompt oracle2 now st keyword g h,
        App.processKeyword_cache_hit language prompt oracle now st keyword g h]

theorem c1_witness :
    DbUtils.get_existing_grouping sampleDb "running shoes" "English" "T" =
      some ⟨"Footwear", "Running", "Shoes", "buy running shoes"⟩ ∧
    App.processKeyword "English" "T" sampleOracle sampleDate
        ⟨sampleDb, [], 0, 0, 0, 0⟩ "running shoes" =
      { db := sampleDb,
        results := [⟨"running shoes", "English", "Footwear", "Running", "Shoes",
          "buy running shoes", "cache"⟩],
        processed_count := 1, errors := 0, llm_calls := 0, cache_hits := 1 } :=
  ⟨sampleDb_lookup,
   (c1_cache_hit_skips_model "English" "T" sampleDate "running shoes" sampleOracle
      ⟨sampleDb, [], 0, 0, 0, 0⟩ ⟨"Footwear", "Running", "Shoes", "buy running shoes"⟩
      sampleDb_lookup).1⟩

/-- C2: store idempotence. Starting from any database without the
(keyword, language, fingerprint) triple, the first `add_keyword_grouping`
inserts exactly one new row holding the first call's field values, and a
second call with identical arguments is a no-op that leaves the database —
including the first row — unchanged and reports the duplicate (the caught
IntegrityError warning path), not a failure. The `date_added` values model
the internal `datetime.now()` reading of each call and may differ. -/
theorem c2_store_idempotent (db : DbUtils.DB) (k l p m s1 s2 th t1 t2 : String)
    (h : DbUtils.hasTriple db k l p = false) :
    DbUtils.add_keyword_grouping db k l p m s1 s2 th t1 =
      ({ rows := db.rows ++
          [⟨db.nextId, k, l, DbUtils.get_prompt_hash p, m, s1, s2, th, t1⟩],
         nextId := db.nextId + 1 }, .inserted) ∧
    DbUtils.add_keyword_grouping (DbUtils.add_keyword_grouping db k l p m s1 s2 th t1).1
        k l p m s1 s2 th t2 =
      ((DbUtils.add_keyword_grouping db k l p m s1 s2 th t1).1, .duplicate) := by
  refine ⟨DbUtils.add_keyword_grouping_inserts db k l p m s1 s2 th t1 h, ?_⟩
  exact DbUtils.add_keyword_grouping_duplicate _ k l p m s1 s2 th t2
    (DbUtils.hasTriple_after_add db k l p m s1 s2 th t1)

theorem c2_witness :
    DbUtils.hasTriple DbUtils.emptyDB "running shoes" "English" "T" = false ∧
    DbUtils.add_keyword_grouping
        (DbUtils.add_keyword_grouping DbUtils.emptyDB "running shoes" "English" "T"
          "Footwear" "Running" "Shoes" "buy running shoes" sampleDate).1
        "running shoes" "English" "T"
        "Footwear" "Running" "Shoes" "buy running shoes" "2025-04-10 12:00:01" =
      ((DbUtils.add_keyword_grouping DbUtils.emptyDB "running shoes" "English" "T"
          "Footwear" "Running" "Shoes" "buy running shoes" sampleDate).1, .duplicate) :=
  ⟨rfl,
   (c2_store_idempotent DbUtils.emptyDB "running shoes" "English" "T"
      "Footwear" "Running" "Shoes" "buy running shoes" sampleDate
      "2025-04-10 12:00:01" rfl).2⟩

/-- C3: round-trip. After a successful store of four field values under a
(keyword, language, template) triple not yet present, looking up the same
triple returns a record with exactly the stored `main_cat`, `sub_cat_1`,
`sub_cat_2` and `semantic_theme`; consequently a later run whose state holds
that database processes the keyword as a cache hit with identical category
fields and an unchanged model-call counter. -/
theorem c3_store_lookup_roundtrip (db : DbUtils.DB)
    (k l p m s1 s2 th t now : String) (oracle : String → App.LlmOutcome)
    (st : App.RunState) (h : DbUtils.hasTriple db k l p = false)
    (hst : st.db = (DbUtils.add_keyword_grouping db k l p m s1 s2 th t).1) :
    DbUtils.get_existing_grouping (DbUtils.add_keyword_grouping db k l p m s1 s2 th t).1
        k l p = some ⟨m, s1, s2, th⟩ ∧
    App.processKeyword l p oracle now st k =
      { st with
        cache_hits := st.cache_hits + 1,
        results := st.results ++ [⟨k, l, m, s1, s2, th, "cache"⟩],
        processed_count := st.processed_count + 1 } := by
  have hlook := DbUtils.lookup_after_add db k l p m s1 s2 th t h
  refine ⟨hlook, ?_⟩
  exact App.processKeyword_cache_hit l p oracle now st k ⟨m, s1, s2, th⟩
    (by rw [hst]; exact hlook)

theorem c3_witness :
    DbUtils.get_existing_grouping sampleDb "running shoes" "English" "T" =
      some ⟨"Footwear", "Running", "Shoes", "buy running shoes"⟩ ∧
    App.processKeyword "English" "T" sampleOracle sampleDate
        ⟨sampleDb, [], 0, 0, 0, 0⟩ "running shoes" =
      { db := sampleDb,
        results := [⟨"running shoes", "English", "Footwear", "Running", "Shoes",
          "buy running shoes", "cache"⟩],
        processed_count := 1, errors := 0, llm_calls := 0, cache_hits := 1 } :=
  (c3_store_lookup_roundtrip DbUtils.emptyDB "running shoes" "English" "T"
    "Footwear" "Running" "Shoes" "buy running shoes" sampleDate sampleDate
    sampleOracle ⟨sampleDb, [], 0, 0, 0, 0⟩ rfl rfl)

/-- C4 counterexample: the claim quantifies over all pairs of distinct
templates, but the lookup key is the SHA-256 fingerprint, and by the
pigeonhole argument two distinct template texts with equal fingerprints
exist; for such a pair the lookup after the store finds the stored row
instead of returning the not-found signal. -/
theorem c4_counterexample :
    ¬ ∀ (k l T1 T2 m s1 s2 th t : String), T1 ≠ T2 →
      DbUtils.get_existing_grouping
          (DbUtils.add_keyword_grouping DbUtils.emptyDB k l T1 m s1 s2 th t).1
          k l T2 = none := by
  intro hclaim
  obtain ⟨T1, T2, hne, hhash⟩ := get_prompt_hash_exists_collision
  have h := hclaim "k" "en" T1 T2 "m" "s1" "s2" "th" "t" hne
  rw [DbUtils.add_keyword_grouping_inserts DbUtils.emptyDB "k" "en" T1
      "m" "s1" "s2" "th" "t" rfl] at h
  simp [DbUtils.get_existing_grouping, DbUtils.rowMatches, ← hhash] at h

/-- C4 (amended): prompt-change invalidation holds for every pair of
templates whose fingerprints differ — storing under T1 and looking up under
T2 with `get_prompt_hash T1 ≠ get_prompt_hash T2` (the case for every pair of
distinct templates one can actually exhibit) returns the not-found signal;
fingerprint-colliding distinct template pairs, which exist mathematically,
are the sole exception. -/
theorem c4_prompt_change_invalidation (k l T1 T2 m s1 s2 th t : String)
    (h : DbUtils.get_prompt_hash T1 ≠ DbUtils.get_prompt_hash T2) :
    DbUtils.get_existing_grouping
        (DbUtils.add_keyword_grouping DbUtils.emptyDB k l T1 m s1 s2 th t).1
        k l T2 = none := by
  rw [DbUtils.add_keyword_grouping_inserts DbUtils.emptyDB k l T1 m s1 s2 th t rfl]
  rw [DbUtils.lookup_eq_none_iff]
  simp [DbUtils.hasTriple, DbUtils.rowMatches]
  exact ⟨by simp [DbUtils.emptyDB], h⟩

set_option maxRecDepth 1000000 in
theorem c4_witness :
    DbUtils.get_prompt_hash "T" ≠ DbUtils.get_prompt_hash "U" ∧
    DbUtils.get_existing_grouping
        (DbUtils.add_keyword_grouping DbUtils.emptyDB "running shoes" "English" "T"
          "Footwear" "Running" "Shoes" "buy running shoes" sampleDate).1
        "running shoes" "English" "U" = none :=
  ⟨by decide,
   c4_prompt_change_invalidation "running shoes" "English" "T" "U"
     "Footwear" "Running" "Shoes" "buy running shoes" sampleDate (by decide)⟩

/-- C5 counterexample: the fingerprint function cannot be injective on all
template texts — its digests form a finite set (64 hex characters, at most
2^256 values) while template texts are infinite, so by pigeonhole two
distinct texts share a fingerprint. -/
theorem c5_counterexample :
    ¬ ((∀ T : String, DbUtils.get_prompt_hash T = DbUtils.get_prompt_hash T) ∧
       (∀ T1 T2 : String, T1 ≠ T2 →
         DbUtils.get_prompt_hash T1 ≠ DbUtils.get_prompt_hash T2)) := by
  intro hclaim
  obtain ⟨T1, T2, hne, hhash⟩ := get_prompt_hash_exists_collision
  exact hclaim.2 T1 T2 hne hhash

set_option maxRecDepth 1000000 in
/-- C5 (amended): the fingerprint function is deterministic — identical text
always yields the identical digest — and maps every template text to a
fixed-length 64-hex-character identifier; distinct digests are verified on
concrete distinct templates, but universal injectivity cannot hold (a
fixed-length digest over infinitely many texts necessarily collides
somewhere), only computational collision resistance. -/
theorem c5_fingerprint_deterministic :
    (∀ T : String, DbUtils.get_prompt_hash T = DbUtils.get_prompt_hash T) ∧
    (∀ T : String, (DbUtils.get_prompt_hash T).length = 64) ∧
    DbUtils.get_prompt_hash "T" ≠ DbUtils.get_prompt_hash "U" ∧
    DbUtils.get_prompt_hash "T" ≠ DbUtils.get_prompt_hash "TT" ∧
    DbUtils.get_prompt_hash "U" ≠ DbUtils.get_prompt_hash "TT" := by
  refine ⟨fun T => rfl, fun T => ?_, by decide, by decide, by decide⟩
  simp [DbUtils.get_prompt_hash, Hashlib.hexdigest, Hashlib.wordHex, String.length]

/-- C6: field normalization. For every structurally valid model response,
the keyword's stored row and reported Run Result carry each of the four
fields trimmed, with a trimmed-empty value replaced by the fixed per-field
default (main_cat: Uncategorized, sub_cat_1: General, sub_cat_2: Detail,
semantic_theme: N/A) — which is what `normalizeField` applies — and none of
the four stored or reported values is the empty string. -/
theorem c6_field_normalization (language prompt now keyword : String)
    (oracle : String → App.LlmOutcome) (st : App.RunState)
    (d : List (String × String))
    (hmiss : DbUtils.get_existing_grouping st.db keyword language prompt = none)
    (hor : oracle keyword = .returns (some d))
    (hv : App.validLlmResult (some d) = true) :
    App.processKeyword language prompt oracle now st keyword =
      { st with
        db := { rows := st.db.rows ++
                  [⟨st.db.nextId, keyword, language, DbUtils.get_prompt_hash prompt,
                    App.normalizeField (App.pyDictGet d "main_cat" "Uncategorized") "Uncategorized",
                    App.normalizeField (App.pyDictGet d "sub_cat_1" "General") "General",
                    App.normalizeField (App.pyDictGet d "sub_cat_2" "Detail") "Detail",
                    App.normalizeField (App.pyDictGet d "semantic_theme" "N/A") "N/A",
                    now⟩],
                nextId := st.db.nextId + 1 },
        results := st.results ++
          [⟨keyword, language,
            App.normalizeField (App.pyDictGet d "main_cat" "Uncategorized") "Uncategorized",
            App.normalizeField (App.pyDictGet d "sub_cat_1" "General") "General",
            App.normalizeField (App.pyDictGet d "sub_cat_2" "Detail") "Detail",
            App.normalizeField (App.pyDictGet d "semantic_theme" "N/A") "N/A",
            "llm"⟩],
        llm_calls := st.llm_calls + 1,
        processed_count := st.processed_count + 1 } ∧
    App.normalizeField (App.pyDictGet d "main_cat" "Uncategorized") "Uncategorized" ≠ "" ∧
    App.normalizeField (App.pyDictGet d "sub_cat_1" "General") "General" ≠ "" ∧
    App.normalizeField (App.pyDictGet d "sub_cat_2" "Detail") "Detail" ≠ "" ∧
    App.normalizeField (App.pyDictGet d "semantic_theme" "N/A") "N/A" ≠ "" := by
  refine ⟨?_, App.normalizeField_ne_empty _ _ (by decide),
    App.normalizeField_ne_empty _ _ (by decide),
    App.normalizeField_ne_empty _ _ (by decide),
    App.normalizeField_ne_empty _ _ (by decide)⟩
  rw [App.processKeyword_valid_response language prompt now keyword oracle st d
    hmiss hor hv]
  have hfree : DbUtils.hasTriple st.db keyword language prompt = false :=
    (DbUtils.lookup_eq_none_iff st.db keyword language prompt).mp hmiss
  dsimp only [App.validResponse]
  rw [DbUtils.add_keyword_grouping_inserts st.db keyword language prompt _ _ _ _ now
    hfree]

theorem c6_witness :
    App.validLlmResult (some untrimmedDict) = true ∧
    App.processKeyword "English" "T" untrimmedOracle sampleDate
        ⟨DbUtils.emptyDB, [], 0, 0, 0, 0⟩ "trail shoes" =
      { db := ⟨[⟨1, "trail shoes", "English", DbUtils.get_prompt_hash "T",
          "Footwear", "General", "Trail", "N/A", sampleDate⟩], 2⟩,
        results := [⟨"trail shoes", "English", "Footwear", "General", "Trail",
          "N/A", "llm"⟩],
        processed_count := 1, errors := 0, llm_calls := 1, cache_hits := 0 } := by
  refine ⟨by decide, ?_⟩
  rw [(c6_field_normalization "English" "T" sampleDate "trail shoes" untrimmedOracle
    ⟨DbUtils.emptyDB, [], 0, 0, 0, 0⟩ untrimmedDict rfl rfl (by decide)).1]
  rfl

/-- C7 counterexample: the code's validation checks only that the four
required keys are present (`key in llm_result`), so a structured mapping
with the four fields plus an extra `confidence` field is accepted, although
it does not contain exactly the four required fields; the claimed
"if and only if" fails at this input. -/
theorem c7_counterexample :
    App.validLlmResult (some extraFieldDict) = true ∧
    llmResultHasExactlyFourFields (some extraFieldDict) = false :=
  ⟨by decide, by decide⟩

/-- C7 (amended): a model response is accepted if and only if it is a
structured mapping containing all four required fields (extra fields do not
cause rejection); for every response that fails this validation the keyword's
Run Result carries the error sentinel fields with provenance `llm_error`, the
error counter is incremented, and the database is left unchanged — store is
not called. -/
theorem c7_validation_accepts_iff_four_fields :
    (∀ val : Option (List (String × String)),
      App.validLlmResult val = true ↔ llmResultHasFourFields val = true) ∧
    (∀ (language prompt now keyword : String) (oracle : String → App.LlmOutcome)
      (st : App.RunState) (val : Option (List (String × String))),
      DbUtils.get_existing_grouping st.db keyword language prompt = none →
      oracle keyword = .returns val →
      App.validLlmResult val = false →
      App.processKeyword language prompt oracle now st keyword =
        { st with
          llm_calls := st.llm_calls + 1,
          errors := st.errors + 1,
          results := st.results ++
            [⟨keyword, language, "LLM_ERROR", "LLM_ERROR", "LLM_ERROR",
              "Invalid/Incomplete LLM Response: " ++ (App.pyStrVal val).take 100 ++ "...",
              "llm_error"⟩] }) := by
  constructor
  · intro val
    cases val with
    | none => simp [App.validLlmResult, llmResultHasFourFields]
    | some d =>
      cases d with
      | nil => simp [App.validLlmResult, llmResultHasFourFields, App.pyDictContains]
      | cons kv tl => simp [App.validLlmResult, llmResultHasFourFields]
  · intro language prompt now keyword oracle st val hmiss hor hv
    rw [App.processKeyword_invalid_response language prompt now keyword oracle st val
      hmiss hor hv]
    rfl

set_option maxRecDepth 100000 in
theorem c7_witness :
    App.validLlmResult (some incompleteDict) = false ∧
    llmResultHasFourFields (some incompleteDict) = false ∧
    App.processKeyword "English" "T" incompleteOracle sampleDate
        ⟨DbUtils.emptyDB, [], 0, 0, 0, 0⟩ "trail shoes" =
      { db := DbUtils.emptyDB,
        results := [⟨"trail shoes", "English", "LLM_ERROR", "LLM_ERROR", "LLM_ERROR",
          "Invalid/Incomplete LLM Response: \x7b\x27main_cat\x27: \x27Footwear\x27\x7d...",
          "llm_error"⟩],
        processed_count := 0, errors := 1, llm_calls := 1, cache_hits := 0 } := by
  refine ⟨by decide, by decide, ?_⟩
  rw [c7_validation_accepts_iff_four_fields.2 "English" "T" sampleDate "trail shoes"
    incompleteOracle ⟨DbUtils.emptyDB, [], 0, 0, 0, 0⟩ (some incompleteDict)
    rfl rfl (by decide)]
  rfl

/-- C8: batch resilience. Every processing run yields exactly one Run Result
per input keyword, in input order — the keyword column of the results list
is the input list itself; and when the Model Client call for a keyword
raises, the exception is caught per keyword: that keyword's Run Result
carries the sentinel category fields and the exception's message with
provenance `llm_error`, the error and model-call counters are bumped, and
the state is otherwise unchanged — in particular the database is untouched,
so the failure cannot affect any other keyword's processing, and the fold
continues with the next keyword rather than aborting the batch. -/
theorem c8_batch_resilience :
    (∀ (db : DbUtils.DB) (language prompt : String)
      (oracle : String → App.LlmOutcome) (now : String) (keywords : List String),
      ((App.processKeywords db language prompt oracle now keywords).results).map
        App.RunResult.keyword = keywords) ∧
    (∀ (language prompt now keyword msg : String)
      (oracle : String → App.LlmOutcome) (st : App.RunState),
      DbUtils.get_existing_grouping st.db keyword language prompt = none →
      oracle keyword = .raises msg →
      App.processKeyword language prompt oracle now st keyword =
        { st with
          llm_calls := st.llm_calls + 1,
          errors := st.errors + 1,
          results := st.results ++
            [⟨keyword, language, "LLM_ERROR", "LLM_ERROR", "LLM_ERROR",
              "API/Processing Error: " ++ msg, "llm_error"⟩] }) := by
  constructor
  · intro db language prompt oracle now keywords
    unfold App.processKeywords
    rw [App.foldl_results_map_keyword]
    simp
  · intro language prompt now keyword msg oracle st hmiss hraise
    exact App.processKeyword_raises language prompt oracle now st keyword msg
      hmiss hraise

set_option maxRecDepth 100000 in
theorem c8_witness :
    ((App.processKeywords DbUtils.emptyDB "English" "T" resilienceOracle sampleDate
        ["k1", "k2", "k3"]).results).map App.RunResult.keyword = ["k1", "k2", "k3"] ∧
    ((App.processKeywords DbUtils.emptyDB "English" "T" resilienceOracle sampleDate
        ["k1", "k2", "k3"]).results).map App.RunResult.source =
      ["llm", "llm_error", "llm"] ∧
    resilienceOracle "k2" = .raises "boom" ∧
    App.processKeyword "English" "T" resilienceOracle sampleDate
        ⟨DbUtils.emptyDB, [], 0, 0, 0, 0⟩ "k2" =
      { db := DbUtils.emptyDB,
        results := [⟨"k2", "English", "LLM_ERROR", "LLM_ERROR", "LLM_ERROR",
          "API/Processing Error: boom", "llm_error"⟩],
        processed_count := 0, errors := 1, llm_calls := 1, cache_hits := 0 } := by
  refine ⟨c8_batch_resilience.1 DbUtils.emptyDB "English" "T" resilienceOracle
    sampleDate ["k1", "k2", "k3"], by decide, rfl, ?_⟩
  rw [c8_batch_resilience.2 "English" "T" sampleDate "k2" "boom" resilienceOracle
    ⟨DbUtils.emptyDB, [], 0, 0, 0, 0⟩ rfl rfl]
  rfl

/-- C9: listAll. `get_all_data` returns exactly the stored records — its
output is a permutation of the projection of every table row onto the
exported columns, nothing filtered — ordered by the recorded creation
timestamp `date_added` descending, most recently created first (rows sharing
a timestamp, the recorded granularity being one second, may appear in any
relative order among themselves). -/
theorem c9_get_all_data_ordered (db : DbUtils.DB) :
    (DbUtils.get_all_data db).Perm (db.rows.map DbUtils.exportRow) ∧
    (DbUtils.get_all_data db).Pairwise
      (fun a b => b.date_added ≤ a.date_added) := by
  constructor
  · exact (List.mergeSort_perm db.rows DbUtils.dateDesc).map DbUtils.exportRow
  · have hs := List.sorted_mergeSort DbUtils.dateDesc_trans DbUtils.dateDesc_total
      db.rows
    refine List.Pairwise.map DbUtils.exportRow ?_ hs
    intro a b hab
    simpa [DbUtils.dateDesc, DbUtils.exportRow] using hab

/-- C10 counterexample: `get_llm_grouping` renders the template with
`str.format` before the llm_choice dispatch, so with a template whose
replacement field is unknown the call raises that KeyError — not a
ValueError — even when llm_choice is outside the four supported tags. -/
theorem c10_counterexample :
    LlmUtils.get_llm_grouping "k" "en" "Cohere" "\x7bbogus\x7d" =
      Except.error (LlmUtils.PyError.keyError "bogus") ∧
    LlmUtils.isValueError
      (LlmUtils.get_llm_grouping "k" "en" "Cohere" "\x7bbogus\x7d") = false :=
  ⟨rfl, rfl⟩

/-- C10 (amended): provided the prompt template renders successfully under
`str.format` — its replacement fields are only the supported placeholders —
`get_llm_grouping` raises ValueError("Invalid LLM choice") for every
llm_choice outside the four supported tags, invoking no vendor call; and for
each of the four valid tags it dispatches to exactly the corresponding
vendor call with the rendered prompt. When rendering itself raises, that
exception propagates before the choice is examined. -/
theorem c10_dispatch_after_render (keyword language llm_choice tmpl p : String)
    (hfmt : LlmUtils.pyFormat tmpl keyword language = .ok p) :
    (llm_choice ≠ "OpenAI" → llm_choice ≠ "Gemini" → llm_choice ≠ "Claude" →
      llm_choice ≠ "Mistral" →
      LlmUtils.get_llm_grouping keyword language llm_choice tmpl =
        .error (.valueError "Invalid LLM choice")) ∧
    LlmUtils.get_llm_grouping keyword language "OpenAI" tmpl = .ok (.openai, p) ∧
    LlmUtils.get_llm_grouping keyword language "Gemini" tmpl = .ok (.gemini, p) ∧
    LlmUtils.get_llm_grouping keyword language "Claude" tmpl = .ok (.claude, p) ∧
    LlmUtils.get_llm_grouping keyword language "Mistral" tmpl = .ok (.mistral, p) := by
  unfold LlmUtils.get_llm_grouping
  rw [hfmt]
  refine ⟨?_, rfl, rfl, rfl, rfl⟩
  intro h1 h2 h3 h4
  simp [h1, h2, h3, h4]

set_option maxRecDepth 100000 in
theorem c10_witness :
    LlmUtils.pyFormat "Analyze \x7bkeyword\x7d in \x7blanguage\x7d."
        "running shoes" "English" = .ok "Analyze running shoes in English." ∧
    LlmUtils.get_llm_grouping "running shoes" "English" "Cohere"
        "Analyze \x7bkeyword\x7d in \x7blanguage\x7d." =
      .error (.valueError "Invalid LLM choice") ∧
    LlmUtils.get_llm_grouping "running shoes" "English" "OpenAI"
        "Analyze \x7bkeyword\x7d in \x7blanguage\x7d." =
      .ok (.openai, "Analyze running shoes in English.") := by
  have hfmt : LlmUtils.pyFormat "Analyze \x7bkeyword\x7d in \x7blanguage\x7d."
      "running shoes" "English" = .ok "Analyze running shoes in English." := rfl
  have h := c10_dispatch_after_render "running shoes" "English" "Cohere"
    "Analyze \x7bkeyword\x7d in \x7blanguage\x7d."
    "Analyze running shoes in English." hfmt
  exact ⟨hfmt, h.1 (by decide) (by decide) (by decide) (by decide), h.2.1⟩

end KeywordGrouper
